import Mathlib

/-!
# Verification of the `FieldError` accumulator of `apis/field_error.go`

This file embeds the `FieldError` type and its operations
(`Also`, `ViaField`, `ViaIndex`, `ViaKey`, `ViaFieldIndex`, `ViaFieldKey`,
`getNormalizedErrors`, `mergePaths`, `flatten`, `isIndex`, `key`, `Error`,
and the `Err*` constructors) as Lean definitions, and proves or refutes
the specification's claims about them.

Modelling conventions:
* A Go `*FieldError` is `Option FieldError` (`none` = nil pointer).
* The unexported `errors map[string]FieldError` field is an insertion-ordered
  association list `List (String × FieldError)`.  Go's map iteration order is
  unspecified; we iterate in insertion order (a deterministic refinement).
  The nil-map/empty-map distinction only matters for the panic in `Also`
  when the receiver is nil, which is modelled explicitly there.
* Go runtime panics (nil-pointer dereference, assignment to a nil map) are
  modelled with `Except Unit`: `.error ()` is a panic.
* `sort.Slice` (an unstable sort in Go) is modelled by a deterministic
  insertion sort; for string lists the sorted result is unique, and for
  entry lists ties between equal messages keep insertion order.
-/

namespace FieldErrGo

/-- Embeds the Go struct
`type FieldError struct { Message string; Paths []string; Details string; errors map[string]FieldError }`.
The `errors` map is modelled as an insertion-ordered association list. -/
inductive FieldError : Type where
  | mk (Message : String) (Paths : List String) (Details : String)
       (errors : List (String × FieldError)) : FieldError

/-- `Message` field projection. -/
def FieldError.Message : FieldError → String
  | .mk m _ _ _ => m

/-- `Paths` field projection. -/
def FieldError.Paths : FieldError → List String
  | .mk _ p _ _ => p

/-- `Details` field projection. -/
def FieldError.Details : FieldError → String
  | .mk _ _ d _ => d

/-- `errors` field projection. -/
def FieldError.errors : FieldError → List (String × FieldError)
  | .mk _ _ _ e => e

/-- The zero value `FieldError{}` of the Go struct. -/
def zeroFE : FieldError := .mk "" [] "" []

/-- Embeds `const CurrentField = ""`. -/
def CurrentField : String := ""

/-- Embeds `func key(err *FieldError) string { return fmt.Sprintf("%s-%s", err.Message, err.Details) }`
(for a non-nil argument; calling it on nil panics and is modelled at call sites). -/
def key (err : FieldError) : String :=
  err.Message ++ "-" ++ err.Details

/-- Embeds `func containsString(slice []string, s string) bool`. -/
def containsString (slice : List String) (s : String) : Bool :=
  slice.any (fun item => item == s)

/-- Embeds `func mergePaths(a, b []string) []string`: append `a`, then append
each element of `b` not already present in the accumulated list. -/
def mergePaths (a b : List String) : List String :=
  b.foldl (fun newPaths p => if containsString newPaths p then newPaths else newPaths ++ [p]) a

/-- First value bound to `k` in an association list (Go map lookup). -/
def mapFind : List (String × FieldError) → String → Option FieldError
  | [], _ => none
  | (k', v) :: rest, k => if k' = k then some v else mapFind rest k

/-- Replace the value bound to `k` (Go map assignment to an existing key);
keeps the entry's slot. -/
def mapSet : List (String × FieldError) → String → FieldError → List (String × FieldError)
  | [], _, _ => []
  | (k', v') :: rest, k, v =>
    if k' = k then (k', v) :: rest else (k', v') :: mapSet rest k v

/-- The merge loop body of `getNormalizedErrors`: fold the entries of one
recursively-normalized sub-map `sub` into the accumulated map `acc`
(`if v, ok := errors[k]; ok { v.Paths = mergePaths(v.Paths, err.Paths); errors[k] = v } else { errors[k] = err }`). -/
def mergeNormalized (acc sub : List (String × FieldError)) : List (String × FieldError) :=
  sub.foldl
    (fun acc kv =>
      match mapFind acc kv.1 with
      | some v => mapSet acc kv.1 (.mk v.Message (mergePaths v.Paths kv.2.Paths) v.Details v.errors)
      | none => acc ++ [kv])
    acc

/-- The leaf entry `getNormalizedErrors` creates when `fe.Message != ""`:
a copy of the receiver's message/paths/details with a nil `errors` map. -/
def normBase (m : String) (ps : List String) (d : String) : List (String × FieldError) :=
  if m ≠ "" then [(key (.mk m ps d []), .mk m ps d [])] else []

mutual

/-- Embeds `func (fe *FieldError) getNormalizedErrors() map[string]FieldError`
for a non-nil receiver (on nil it returns the nil map, handled at call sites):
a leaf entry for the receiver's own message, then the recursively normalized
nested errors merged in, in insertion order. -/
def normalize : FieldError → List (String × FieldError)
  | .mk m ps d errs => normalizeGo (normBase m ps d) errs

/-- The `for _, e := range fe.errors` loop of `getNormalizedErrors`. -/
def normalizeGo : List (String × FieldError) → List (String × FieldError) → List (String × FieldError)
  | acc, [] => acc
  | acc, kv :: rest => normalizeGo (mergeNormalized acc (normalize kv.2)) rest

end

/-- Go `strings.Split(part, ".")` for the single-character separator used by
`flatten`, implemented over the character list (so that it evaluates in the
kernel): split at every occurrence of `sep`, keeping empty pieces. -/
def splitOnChar (sep : Char) (s : String) : List String :=
  (s.toList.foldr
    (fun c (acc : List (List Char)) =>
      match acc with
      | cur :: rest => if c = sep then [] :: cur :: rest else (c :: cur) :: rest
      | [] => [[c]])
    [[]]).map fun l => String.mk l

/-- Go's `<` on strings (byte-wise lexicographic; on valid UTF-8 this equals
code-point-wise lexicographic order, used here), over character lists. -/
def strLtList : List Char → List Char → Bool
  | [], [] => false
  | [], _ :: _ => true
  | _ :: _, [] => false
  | a :: as, b :: bs =>
    if a.val < b.val then true else if b.val < a.val then false else strLtList as bs

/-- Go's `a < b` on strings. -/
def strLt (a b : String) : Bool := strLtList a.toList b.toList

/-- Embeds `func isIndex(part string) bool`:
`strings.HasPrefix(part, "[") && strings.HasSuffix(part, "]")`
(the one-character affixes checked on the character list). -/
def isIndex (part : String) : Bool :=
  (match part.toList with | c :: _ => c = '[' | [] => false) &&
  (match part.toList.getLast? with | some c => c = ']' | none => false)

/-- One iteration of the inner loop of `flatten` over a dot-split piece `p`.
Go appends to the tail of `newPath`; we keep the accumulator reversed
(head = most recently appended segment) and reverse it at the end. -/
def flattenStep (rnp : List String) (p : String) : List String :=
  if p = CurrentField then rnp
  else
    match rnp with
    | [] => [p]
    | last :: rest => if isIndex p then (last ++ p) :: rest else p :: last :: rest

/-- Embeds `func flatten(path []string) string`: for each fragment, split on
`"."` and process each piece with `flattenStep`, then join with `"."`. -/
def flatten (path : List String) : String :=
  String.intercalate "."
    (path.foldl (fun rnp part => (splitOnChar '.' part).foldl flattenStep rnp) []).reverse

/-- Embeds `func asIndex(index int) string { return fmt.Sprintf("[%d]", index) }`. -/
def asIndex (index : Int) : String := "[" ++ toString index ++ "]"

/-- Embeds `func asKey(key string) string { return fmt.Sprintf("[%s]", key) }`. -/
def asKey (key : String) : String := "[" ++ key ++ "]"

/-- Insert a string into an already-sorted list (ascending, Go `<` on strings).
Used to model `sort.Slice` on path lists, whose sorted result is unique. -/
def insertStr (s : String) : List String → List String
  | [] => [s]
  | x :: xs => if strLt x s then x :: insertStr s xs else s :: x :: xs

/-- Sort a list of strings ascending; models
`sort.Slice(e.Paths, func(i, j int) bool { return e.Paths[i] < e.Paths[j] })`. -/
def sortStrings (l : List String) : List String := l.foldr insertStr []

/-- Insert an entry into a list sorted ascending by `Message`, after any
entry with an equal message (a stable refinement of Go's unstable
`sort.Slice(errors, ...Message < ...Message)`). -/
def insertEntry (e : FieldError) : List FieldError → List FieldError
  | [] => [e]
  | x :: xs => if strLt x.Message e.Message then x :: insertEntry e xs else e :: x :: xs

/-- Sort entries ascending by `Message`, keeping insertion order among ties. -/
def sortEntries (l : List FieldError) : List FieldError := l.foldr insertEntry []

/-- Format one normalized entry the way the loop body of `Error()` does:
sort its paths, then `"<message>: <paths joined by ', '>"`, with
`"\n<details>"` appended when `Details` is non-empty. -/
def renderEntry (e : FieldError) : String :=
  let ps := String.intercalate ", " (sortStrings e.Paths)
  if e.Details = "" then e.Message ++ ": " ++ ps
  else e.Message ++ ": " ++ ps ++ "\n" ++ e.Details

/-- Embeds the body of `func (fe *FieldError) Error() string` for a non-nil
receiver: collect the normalized entries, sort them by message, render each
(building the `errs` slice by successive appends), and join with newlines. -/
def ErrorStr (fe : FieldError) : String :=
  let entries := sortEntries ((normalize fe).map Prod.snd)
  String.intercalate "\n" (entries.foldl (fun errs e => errs ++ [renderEntry e]) [])

/-- Embeds `Error()` on a Go `*FieldError`: on a nil receiver the first
statement `make([]FieldError, 0, len(fe.errors))` dereferences the nil
pointer, which is a runtime panic (`.error ()`). -/
def ErrorE : Option FieldError → Except Unit String
  | none => .error ()
  | some fe => .ok (ErrorStr fe)

/-- One iteration of the `for _, e := range errs` loop of `Also`, for a
non-nil receiver map `m` and a non-nil argument `e`:
`k := key(e); if err, ok := m[k]; ok { newErr := m[k]; newErr.Paths = mergePaths(newErr.Paths, err.Paths); m[k] = newErr } else { m[k] = err }`.
Note the Go code inserts `err` — the zero-value result of the missed map
lookup — in the `else` branch, and in the `ok` branch merges the found
entry's paths with themselves; the argument `e` only contributes its key. -/
def alsoInsert (m : List (String × FieldError)) (e : FieldError) : List (String × FieldError) :=
  let k := key e
  match mapFind m k with
  | some err => mapSet m k (.mk err.Message (mergePaths err.Paths err.Paths) err.Details err.errors)
  | none => m ++ [(k, zeroFE)]

/-- The `for _, e := range errs` loop of `Also` over a non-nil receiver map.
A nil pointer among `errs` panics inside `key(e)`. -/
def alsoGo : List (String × FieldError) → List (Option FieldError) → Except Unit (List (String × FieldError))
  | m, [] => .ok m
  | _, none :: _ => .error ()
  | m, some e :: rest => alsoGo (alsoInsert m e) rest

/-- Embeds `func (fe *FieldError) Also(errs ...*FieldError) *FieldError`.
With a nil receiver, `newErrs.errors` stays a nil map, so the first loop
iteration panics: `key(e)` dereferences a nil `e`, and otherwise the missed
lookup leads to an assignment into the nil map. With a non-nil receiver the
map starts as `fe.getNormalizedErrors()`; if the final map is empty the
result is nil. -/
def AlsoE (fe : Option FieldError) (errs : List (Option FieldError)) : Except Unit (Option FieldError) :=
  match fe with
  | none =>
    match errs with
    | [] => .ok none
    | _ :: _ => .error ()
  | some f =>
    (alsoGo (normalize f) errs).map fun m =>
      if m.isEmpty then none else some (.mk "" [] "" m)

/-- The per-entry transformation of `ViaField`: replace each path `oldPath`
by `flatten(append(prefix, oldPath))`. -/
def prefixPaths (pfx : List String) (e : FieldError) : FieldError :=
  .mk e.Message (e.Paths.map fun oldPath => flatten (pfx ++ [oldPath])) e.Details e.errors

/-- The `for _, e := range fe.getNormalizedErrors()` loop of `ViaField`:
`newErr = newErr.Also(&e)` with the path-rewritten entry. -/
def viaFold (pfx : List String) :
    Option FieldError → List (String × FieldError) → Except Unit (Option FieldError)
  | acc, [] => .ok acc
  | acc, kv :: rest =>
    match AlsoE acc [some (prefixPaths pfx kv.2)] with
    | .ok acc' => viaFold pfx acc' rest
    | .error u => .error u

/-- Embeds `func (fe *FieldError) ViaField(prefix ...string) *FieldError`:
nil receiver returns nil, otherwise fold `Also` over the normalized entries
starting from `&FieldError{}`. -/
def ViaFieldE (fe : Option FieldError) (pfx : List String) : Except Unit (Option FieldError) :=
  match fe with
  | none => .ok none
  | some f => viaFold pfx (some zeroFE) (normalize f)

/-- Embeds `ViaIndex(index int)`. -/
def ViaIndexE (fe : Option FieldError) (index : Int) : Except Unit (Option FieldError) :=
  ViaFieldE fe [asIndex index]

/-- Embeds `ViaFieldIndex(field string, index int)`:
`fe.ViaIndex(index).ViaField(field)`. -/
def ViaFieldIndexE (fe : Option FieldError) (field : String) (index : Int) :
    Except Unit (Option FieldError) :=
  (ViaIndexE fe index).bind fun r => ViaFieldE r [field]

/-- Embeds `ViaKey(key string)`. -/
def ViaKeyE (fe : Option FieldError) (k : String) : Except Unit (Option FieldError) :=
  ViaFieldE fe [asKey k]

/-- Embeds `ViaFieldKey(field string, key string)`:
`fe.ViaKey(key).ViaField(field)`. -/
def ViaFieldKeyE (fe : Option FieldError) (field : String) (k : String) :
    Except Unit (Option FieldError) :=
  (ViaKeyE fe k).bind fun r => ViaFieldE r [field]

/-- Lowercase hexadecimal digit, as Go's `strconv` escape sequences use. -/
def hexDigit (n : Nat) : Char :=
  if n < 10 then Char.ofNat (48 + n) else Char.ofNat (87 + n)

/-- Embeds one character of Go `fmt`'s `%q` output
(`strconv.appendEscapedRune`): `"` and `\` get a backslash escape,
printable ASCII (0x20–0x7E) is emitted as-is, the C escapes cover
`\a \b \f \n \r \t \v`, and any other byte below 0x80 (plus 0x7F)
becomes `\xHH` with lowercase hex.  A rune at 0x80 or above is emitted
as-is: there Go consults `unicode.IsPrint`, so this is exact for
printable runes, and neither a claim nor a caller in this repository
quotes a non-printable non-ASCII rune. -/
def goQuoteChar (c : Char) : String :=
  if c = '"' then "\\\""
  else if c = '\\' then "\\\\"
  else if 0x20 ≤ c.toNat ∧ c.toNat ≤ 0x7E then String.singleton c
  else if 0x80 ≤ c.toNat then String.singleton c
  else if c.toNat = 7 then "\\a"
  else if c.toNat = 8 then "\\b"
  else if c.toNat = 12 then "\\f"
  else if c.toNat = 10 then "\\n"
  else if c.toNat = 13 then "\\r"
  else if c.toNat = 9 then "\\t"
  else if c.toNat = 11 then "\\v"
  else "\\x" ++ String.singleton (hexDigit (c.toNat / 16)) ++ String.singleton (hexDigit (c.toNat % 16))

/-- Embeds Go `fmt`'s `%q` for strings: wrap in double quotes, escaping
each character per `goQuoteChar`. -/
def goQuote (s : String) : String :=
  "\"" ++ String.join (s.toList.map goQuoteChar) ++ "\""

/-- The strings Go's `%q` renders with no escape at all: every character is
printable ASCII (0x20–0x7E) and is neither `"` nor `\`. -/
def plainQuotable (v : String) : Prop :=
  ∀ c ∈ v.toList, (0x20 ≤ c.toNat ∧ c.toNat ≤ 0x7E) ∧ c ≠ '"' ∧ c ≠ '\\'

instance (v : String) : Decidable (plainQuotable v) := by
  unfold plainQuotable
  infer_instance

/-- Embeds `func ErrMissingField(fieldPaths ...string) *FieldError`. -/
def ErrMissingField (fieldPaths : List String) : FieldError :=
  .mk "missing field(s)" fieldPaths "" []

/-- Embeds `func ErrDisallowedFields(fieldPaths ...string) *FieldError`. -/
def ErrDisallowedFields (fieldPaths : List String) : FieldError :=
  .mk "must not set the field(s)" fieldPaths "" []

/-- Embeds `func ErrInvalidValue(value, fieldPath string) *FieldError`. -/
def ErrInvalidValue (value fieldPath : String) : FieldError :=
  .mk ("invalid value " ++ goQuote value) [fieldPath] "" []

/-- Embeds `func ErrMissingOneOf(fieldPaths ...string) *FieldError`. -/
def ErrMissingOneOf (fieldPaths : List String) : FieldError :=
  .mk "expected exactly one, got neither" fieldPaths "" []

/-- Embeds `func ErrMultipleOneOf(fieldPaths ...string) *FieldError`. -/
def ErrMultipleOneOf (fieldPaths : List String) : FieldError :=
  .mk "expected exactly one, got both" fieldPaths "" []

/-- Embeds `func ErrInvalidKeyName(value, fieldPath string, details ...string) *FieldError`. -/
def ErrInvalidKeyName (value fieldPath : String) (details : List String) : FieldError :=
  .mk ("invalid key name " ++ goQuote value) [fieldPath] (String.intercalate ", " details) []

/-! ## Specification-side definitions

These follow the wording of the spec (not the source), to be compared
with the definitions above. -/

/-- Path flattening as the spec words it: FIRST split every fragment on
dots, THEN process the resulting pieces in order (drop the current-field
sentinel, attach a `[...]` piece to the immediately preceding retained
piece, join the rest with dots). -/
def flattenSpec (path : List String) : String :=
  String.intercalate "."
    (((path.map (splitOnChar '.')).flatten).foldl flattenStep []).reverse

/-- Rendering as the spec words it: normalize to entries, sort the entries
by message ascending, sort each entry's paths ascending, render each entry
as `"<message>: <comma-and-space-joined paths>"` with non-empty details
appended after a newline, and join the rendered entries with newlines. -/
def ErrorSpec (fe : FieldError) : String :=
  String.intercalate "\n"
    ((sortEntries ((normalize fe).map Prod.snd)).map fun e =>
      let line := e.Message ++ ": " ++ String.intercalate ", " (sortStrings e.Paths)
      if e.Details = "" then line else line ++ "\n" ++ e.Details)

/-! ## Sanity checks of the embedding (the repository test cases that the embedded code does satisfy) -/

example : normalize (.mk "a" ["p"] "" []) = [("a-", .mk "a" ["p"] "" [])] := rfl

example :
    normalize (.mk "" [] "" [("x", .mk "a" ["p"] "b" []), ("y", .mk "a" ["q"] "b" [])]) =
      [("a-b", .mk "a" ["p", "q"] "b" [])] := rfl

example : splitOnChar '.' "a..b" = ["a", "", "b"] := rfl
example : splitOnChar '.' "" = [""] := rfl

example : flatten ["foo", "[1]", "[0]", "bar"] = "foo[1][0].bar" := rfl
example : flatten ["[0]", "foo", "bar"] = "[0].foo.bar" := rfl
example : flatten ["foo", "bar.[0].baz"] = "foo.bar[0].baz" := rfl
example : flatten ["baz", "ugh", ""] = "baz.ugh" := rfl

example : sortStrings ["foo", "bar", "baz"] = ["bar", "baz", "foo"] := rfl

example : ErrorStr (.mk "hear me roar" ["foo.bar"] "" []) = "hear me roar: foo.bar" := rfl

example : goQuote "blah" = "\"blah\"" := rfl

example : goQuote "\n" = "\"\\n\"" := rfl

example : goQuote "\x01" = "\"\\x01\"" := rfl

example : goQuote "a\"b\\c" = "\"a\\\"b\\\\c\"" := rfl

example : ¬ plainQuotable "\n" := by decide

/-! ## Helper lemmas -/

/-- Folding string concatenation over singleton characters rebuilds the
underlying character list. -/
theorem foldl_append_singleton (l : List Char) :
    ∀ acc : String, List.foldl (fun r s => r ++ s) acc (l.map String.singleton) =
      ⟨acc.data ++ l⟩ := by
  induction l with
  | nil => intro acc; cases acc; simp
  | cons c cs ih =>
    intro acc
    rw [List.map_cons, List.foldl_cons, ih]
    cases acc
    simp [String.singleton]

/-- On a `plainQuotable` string, `%q` is exactly plain quoting. -/
theorem goQuote_plain (v : String) (hv : plainQuotable v) :
    goQuote v = "\"" ++ v ++ "\"" := by
  unfold goQuote
  have hmap : v.toList.map goQuoteChar = v.toList.map String.singleton := by
    apply List.map_congr_left
    intro c hc
    obtain ⟨⟨h1, h2⟩, h3, h4⟩ := hv c hc
    unfold goQuoteChar
    rw [if_neg h3, if_neg h4, if_pos ⟨h1, h2⟩]
  rw [hmap]
  unfold String.join
  rw [foldl_append_singleton]
  cases v
  simp [String.toList]

theorem normalize_zeroFE : normalize zeroFE = [] := rfl

/-- The non-nil accumulators produced by `Also` inside `ViaField` carry only
zero-valued entries, which normalization discards. -/
theorem normalize_junk (ps : List String) (d k : String) :
    normalize (.mk "" ps d [(k, zeroFE)]) = [] := rfl

theorem mapSet_ne_nil (m : List (String × FieldError)) (k : String) (v : FieldError)
    (hm : m ≠ []) : mapSet m k v ≠ [] := by
  cases m with
  | nil => exact absurd rfl hm
  | cons kv rest =>
    obtain ⟨k', v'⟩ := kv
    simp only [mapSet]
    split <;> simp

theorem mapFind_isSome_ne_nil (m : List (String × FieldError)) (k : String) (v : FieldError)
    (h : mapFind m k = some v) : m ≠ [] := by
  cases m with
  | nil => simp [mapFind] at h
  | cons kv rest => simp

/-- `alsoInsert` never empties the map: it either rewrites an existing entry
or appends one. -/
theorem alsoInsert_ne_nil (m : List (String × FieldError)) (e : FieldError) :
    alsoInsert m e ≠ [] := by
  unfold alsoInsert
  dsimp only
  split
  case _ err heq => exact mapSet_ne_nil m (key e) _ (mapFind_isSome_ne_nil m (key e) err heq)
  case _ => simp

/-- `Also` on a non-nil receiver with one non-nil argument: the result is the
non-nil wrapper around `alsoInsert` of the receiver's normalized map. -/
theorem alsoE_some_some (f g : FieldError) :
    AlsoE (some f) [some g] = .ok (some (.mk "" [] "" (alsoInsert (normalize f) g))) := by
  have hne := alsoInsert_ne_nil (normalize f) g
  simp [AlsoE, alsoGo, Except.map, List.isEmpty_iff, hne]

/-- `Also` on a receiver with empty normalization and one non-nil argument:
the argument contributes only its key, bound to the zero `FieldError`. -/
theorem alsoE_norm_nil (f g : FieldError) (h : normalize f = []) :
    AlsoE (some f) [some g] = .ok (some (.mk "" [] "" [(key g, zeroFE)])) := by
  rw [alsoE_some_some, h]
  rfl

/-- The `ViaField` fold preserves the invariant "non-nil with empty
normalization". -/
theorem viaFold_norm_nil (pfx : List String) (L : List (String × FieldError)) :
    ∀ g0 : FieldError, normalize g0 = [] →
      ∃ g, viaFold pfx (some g0) L = .ok (some g) ∧ normalize g = [] := by
  induction L with
  | nil => exact fun g0 h => ⟨g0, rfl, h⟩
  | cons kv rest ih =>
    intro g0 h
    rw [viaFold, alsoE_norm_nil _ _ h]
    exact ih _ (normalize_junk _ _ _)

/-- `ViaField` on a non-nil receiver never panics and always returns a
non-nil accumulator whose normalization is empty. -/
theorem viaFieldE_some (f : FieldError) (pfx : List String) :
    ∃ g, ViaFieldE (some f) pfx = .ok (some g) ∧ normalize g = [] := by
  unfold ViaFieldE
  exact viaFold_norm_nil pfx (normalize f) zeroFE rfl

/-- An accumulator with empty normalization renders as the empty string. -/
theorem errorE_norm_nil (g : FieldError) (h : normalize g = []) :
    ErrorE (some g) = .ok "" := by
  simp [ErrorE, ErrorStr, h, sortEntries]
  rfl

/-- Rebuilding a list by successive appends (Go's `errs = append(errs, ...)`
idiom) is `List.map`. -/
theorem foldl_append_eq_map (f : FieldError → String) (l : List FieldError) :
    ∀ acc : List String, l.foldl (fun errs e => errs ++ [f e]) acc = acc ++ l.map f := by
  induction l with
  | nil => simp
  | cons x xs ih => intro acc; simp [ih, List.append_assoc]

/-! ## Claims -/

/-- Claim C1: the claim states that combining two leaf errors with identical
non-empty message, identical details and disjoint path lists via `Also`
renders as one entry carrying the sorted union of both path lists
(`"A simple error message: bar, foo"`).  Evaluating the code at that input
shows the argument's paths are dropped: the rendered entry is
`"A simple error message: bar"`, because the `ok` branch of `Also` merges
the existing entry's paths with themselves and never reads the argument's
paths.  The repository's own test `TestFlattenFieldErrors/"simple"` expects
the claimed union, so this is a code bug. -/
theorem c1_merge_by_key_code_eval :
    (AlsoE (some (.mk "A simple error message" ["bar"] "" []))
        [some (.mk "A simple error message" ["foo"] "" [])]).bind ErrorE =
      .ok "A simple error message: bar" := rfl

/-- Claim C2: the claim states that nil and empty accumulators are neutral
for `Also`.  Evaluating the code: `nil.Also(x)` with a non-nil `x` panics
(assignment to the receiver's nil `errors` map), `x.Also(nil)` and
`nil.Also(nil)` panic (`key(e)` dereferences the nil argument), and an
empty accumulator argument does contribute: it inserts the key `"-"` into
the result, so even `(&FieldError{}).Also(&FieldError{})` is non-nil.
The tests `TestAlso/"nil"` and `TestAlsoStaysNil` expect neutrality, so
this is a code bug. -/
theorem c2_nil_neutrality_code_eval :
    AlsoE none [some (.mk "also this" ["woo"] "" [])] = .error () ∧
    AlsoE (some (.mk "also this" ["woo"] "" [])) [none] = .error () ∧
    AlsoE none [none] = .error () ∧
    AlsoE (some zeroFE) [some zeroFE] = .ok (some (.mk "" [] "" [("-", zeroFE)])) :=
  ⟨rfl, rfl, rfl, rfl⟩

/-- Claim C3: the claim states that
`ErrMissingField("foo","bar").ViaField("baz")` renders as
`"missing field(s): baz.bar, baz.foo"`.  Evaluating the code: the `else`
branch of `Also` (used by `ViaField` for every normalized entry) inserts
the zero-valued missed-lookup result instead of the entry, so the result
normalizes to nothing and renders as the empty string.  The repository's
test `TestFieldError/"missing field propagation"` expects the claimed
string, so this is a code bug. -/
theorem c3_missing_field_viafield_code_eval :
    (ViaFieldE (some (ErrMissingField ["foo", "bar"])) ["baz"]).bind ErrorE = .ok "" := rfl

/-- Claim C4: the claim states that no accumulator operation panics, that
all are defined on nil receivers and nil arguments, and that `Error()` on
nil returns `""`.  Evaluating the code: `Error()` on a nil receiver panics
(the first statement dereferences `fe.errors`), and `Also` panics on a nil
argument and on a nil receiver with a non-nil argument.  The tests
`TestNilError` and `TestAlsoStaysNil` expect these calls to succeed, so
this is a code bug. -/
theorem c4_totality_code_eval :
    ErrorE none = .error () ∧
    AlsoE none [some (ErrMissingField ["foo"])] = .error () ∧
    AlsoE (some (ErrMissingField ["foo"])) [none] = .error () :=
  ⟨rfl, rfl, rfl⟩

/-- Claim C5: `flatten` first splits every fragment on dots, drops pieces
equal to the empty current-field sentinel, attaches a `[...]` piece to the
immediately preceding retained piece, joins the rest with dots
(`flattenSpec` is that spec-worded description), and satisfies the two
quoted examples. -/
theorem c5_flatten_spec :
    (∀ path : List String, flatten path = flattenSpec path) ∧
    flatten ["foo", "[1]", "[0]", "bar"] = "foo[1][0].bar" ∧
    flatten ["[0]", "foo", "bar"] = "[0].foo.bar" := by
  refine ⟨fun path => ?_, rfl, rfl⟩
  simp [flatten, flattenSpec, List.foldl_flatten, List.foldl_map]

/-- Claim C6: `ViaField` commutes with `Also`: for all accumulators `a`, `b`
and every segment list `x`, `a.Also(b).ViaField(x...)` yields the same
result as `a.ViaField(x...).Also(b.ViaField(x...))` — the same panic when
either side panics (exactly when `a` or `b` is nil), and otherwise the same
rendered output.  (On this code both sides degenerate to an accumulator
with no normalized entries, rendering as the empty string.) -/
theorem c6_viafield_commutes_with_also (a b : Option FieldError) (x : List String) :
    ((AlsoE a [b]).bind fun r => ViaFieldE r x).bind ErrorE =
      ((ViaFieldE a x).bind fun ra => (ViaFieldE b x).bind fun rb => AlsoE ra [rb]).bind ErrorE := by
  cases a with
  | none =>
    cases b with
    | none => rfl
    | some g =>
      obtain ⟨gb, hb, -⟩ := viaFieldE_some g x
      have h1 : AlsoE none [some g] = .error () := rfl
      have h2 : ViaFieldE none x = (.ok none : Except Unit (Option FieldError)) := rfl
      have h3 : AlsoE none [some gb] = .error () := rfl
      rw [h1, h2]
      simp [Except.bind, hb, h3]
  | some f =>
    cases b with
    | none =>
      obtain ⟨ga, ha, -⟩ := viaFieldE_some f x
      have h1 : AlsoE (some f) [none] = .error () := rfl
      have h2 : ViaFieldE none x = (.ok none : Except Unit (Option FieldError)) := rfl
      have h4 : AlsoE (some ga) [none] = .error () := rfl
      rw [h1, ha, h2]
      simp [Except.bind, h4]
    | some g =>
      obtain ⟨ga, ha, hna⟩ := viaFieldE_some f x
      obtain ⟨gb, hb, -⟩ := viaFieldE_some g x
      rw [alsoE_some_some f g, ha]
      obtain ⟨g', h', hn'⟩ := viaFieldE_some (.mk "" [] "" (alsoInsert (normalize f) g)) x
      simp [Except.bind, h', hb, errorE_norm_nil _ hn', alsoE_norm_nil ga gb hna,
        errorE_norm_nil _ (normalize_junk [] "" (key gb))]

/-- Claim C7: each canonical constructor produces exactly the spec's
message, paths and details (`ErrMissingField`: `"missing field(s)"`;
`ErrDisallowedFields`: `"must not set the field(s)"`; `ErrInvalidValue`:
`"invalid value \"<v>\""`; `ErrMissingOneOf`:
`"expected exactly one, got neither"`; `ErrMultipleOneOf`:
`"expected exactly one, got both"`; `ErrInvalidKeyName`:
`"invalid key name \"<v>\""` with details joined by `", "`), and a freshly
constructed leaf (non-empty message, empty nested map) renders as
`"<message>: <sorted paths joined by ', '>"`, with the details appended
after a newline when non-empty.  The quoted values are restricted to
`plainQuotable` strings — printable ASCII without `"` or `\` — on which
Go's `%q` provably performs plain quoting with no escapes. -/
theorem c7_constructors (v p m d : String) (ps ds : List String)
    (hv : plainQuotable v) (hm : m ≠ "") :
    ErrMissingField ps = .mk "missing field(s)" ps "" [] ∧
    ErrDisallowedFields ps = .mk "must not set the field(s)" ps "" [] ∧
    ErrInvalidValue v p = .mk ("invalid value \"" ++ v ++ "\"") [p] "" [] ∧
    ErrMissingOneOf ps = .mk "expected exactly one, got neither" ps "" [] ∧
    ErrMultipleOneOf ps = .mk "expected exactly one, got both" ps "" [] ∧
    ErrInvalidKeyName v p ds =
      .mk ("invalid key name \"" ++ v ++ "\"") [p] (String.intercalate ", " ds) [] ∧
    ErrorE (some (.mk m ps d [])) =
      .ok (if d = "" then m ++ ": " ++ String.intercalate ", " (sortStrings ps)
        else m ++ ": " ++ String.intercalate ", " (sortStrings ps) ++ "\n" ++ d) := by
  have hsingle : ∀ s : String, String.intercalate "\n" [s] = s := fun s => rfl
  have hq := goQuote_plain v hv
  refine ⟨rfl, rfl, ?_, rfl, rfl, ?_, ?_⟩
  · simp only [ErrInvalidValue, hq, ← String.append_assoc]; rfl
  · simp only [ErrInvalidKeyName, hq, ← String.append_assoc]; rfl
  · simp [ErrorE, ErrorStr, normalize, normalizeGo, normBase, hm, sortEntries, insertEntry,
      renderEntry, hsingle, FieldError.Message, FieldError.Paths, FieldError.Details]

/-- Witness for claim C7 at concrete inputs. -/
theorem c7_constructors_witness :
    (plainQuotable "foo" ∧ ("hear me roar" : String) ≠ "") ∧
    (ErrMissingField ["foo.bar"] = .mk "missing field(s)" ["foo.bar"] "" [] ∧
     ErrDisallowedFields ["foo.bar"] = .mk "must not set the field(s)" ["foo.bar"] "" [] ∧
     ErrInvalidValue "foo" "bar" = .mk ("invalid value \"" ++ "foo" ++ "\"") ["bar"] "" [] ∧
     ErrMissingOneOf ["foo.bar"] = .mk "expected exactly one, got neither" ["foo.bar"] "" [] ∧
     ErrMultipleOneOf ["foo.bar"] = .mk "expected exactly one, got both" ["foo.bar"] "" [] ∧
     ErrInvalidKeyName "foo" "bar" ["d1", "d2"] =
       .mk ("invalid key name \"" ++ "foo" ++ "\"") ["bar"] (String.intercalate ", " ["d1", "d2"]) [] ∧
     ErrorE (some (.mk "hear me roar" ["foo.bar"] "" [])) =
       .ok (if ("" : String) = ""
         then "hear me roar" ++ ": " ++ String.intercalate ", " (sortStrings ["foo.bar"])
         else "hear me roar" ++ ": " ++ String.intercalate ", " (sortStrings ["foo.bar"]) ++ "\n" ++ "")) :=
  ⟨⟨by decide, by decide⟩,
    c7_constructors "foo" "bar" "hear me roar" "" ["foo.bar"] ["d1", "d2"] (by decide) (by decide)⟩

/-- Claim C8: for every non-nil accumulator, `Error()` sorts the normalized
entries by message ascending, sorts each entry's paths ascending, renders
each entry as `"<message>: <paths joined by ', '>"` with non-empty details
appended verbatim after a newline, and joins the rendered entries with
newlines — `ErrorSpec` is that spec-worded description.  The second
conjunct exercises it on a two-entry accumulator with out-of-order
messages and paths. -/
theorem c8_error_rendering :
    (∀ fe : FieldError, ErrorStr fe = ErrorSpec fe) ∧
    ErrorStr (.mk "" [] ""
        [("z", .mk "zeta" ["b", "a"] "" []), ("a", .mk "alpha" ["q", "p"] "some details" [])]) =
      "alpha: p, q\nsome details\nzeta: a, b" := by
  constructor
  · intro fe
    simp [ErrorStr, ErrorSpec, foldl_append_eq_map, renderEntry]
  · rfl

/-- Claim C9: the claim states every public operation returns nil whenever
its result would contain zero normalized entries, in particular `ViaField`
on a non-nil accumulator with no normalized entries.  Evaluating the code:
`(&FieldError{}).ViaField("x")` returns the non-nil `&FieldError{}`
(whose normalization is empty), `nil.Also(&FieldError{})` panics where the
test `TestAlsoStaysNil` expects nil, and
`(&FieldError{}).Also(&FieldError{})` returns a non-nil accumulator whose
normalization is empty.  So the collapse-to-nil rule is violated; the
repository's tests assert it, so this is a code bug. -/
theorem c9_empty_collapse_code_eval :
    normalize zeroFE = [] ∧
    ViaFieldE (some zeroFE) ["x"] = .ok (some zeroFE) ∧
    AlsoE none [some zeroFE] = .error () ∧
    AlsoE (some zeroFE) [some zeroFE] = .ok (some (.mk "" [] "" [("-", zeroFE)])) ∧
    normalize (.mk "" [] "" [("-", zeroFE)]) = [] :=
  ⟨rfl, rfl, rfl, rfl, rfl⟩

/-- Claim C10: the internal deduplication key is `"<message>-<details>"`,
so the leaves `("a-", details "b")` and `("a", details "-b")` share the key
`"a--b"`.  Normalization of a container holding both does merge them into
one entry with both paths.  `Also`, however, while treating them as the
same error (one entry, not two), drops the argument's paths: combining
`{msg "a-", paths ["p"], details "b"}` with `{msg "a", paths ["q"],
details "-b"}` keeps only `["p"]`, where the claim (and the repository's
merge tests) require the merged `["p", "q"]` — a code bug in `Also`. -/
theorem c10_dedup_key_code_eval :
    key (.mk "a-" ["p"] "b" []) = "a--b" ∧
    key (.mk "a" ["q"] "-b" []) = "a--b" ∧
    normalize (.mk "" [] "" [("x", .mk "a-" ["p"] "b" []), ("y", .mk "a" ["q"] "-b" [])]) =
      [("a--b", .mk "a-" ["p", "q"] "b" [])] ∧
    AlsoE (some (.mk "a-" ["p"] "b" [])) [some (.mk "a" ["q"] "-b" [])] =
      .ok (some (.mk "" [] "" [("a--b", .mk "a-" ["p"] "b" [])])) :=
  ⟨rfl, rfl, rfl, rfl⟩

end FieldErrGo
